import Mathlib

/-!
Verification development for the `ematools` scraping pipeline
(`src/ematools/helper.py`, `src/ematools/parse.py`, `src/ematools/data.py`).

The Python source is shallowly embedded: pure data manipulation becomes Lean
functions; filesystem and network effects become explicit state passing with
an oracle describing the outcomes of successive network attempts; Python
exceptions become `Except` errors carrying the exception class and message.
Python dicts (keyed by strings) become association lists with insert-replace
semantics matching dict assignment, and dict `pop` becomes key removal.
-/

/-- Decidable equality for `Except`, so concrete runs can be checked by
`decide`. -/
instance exceptDecidableEq {ε α : Type} [DecidableEq ε] [DecidableEq α] :
    DecidableEq (Except ε α) := fun a b =>
  match a, b with
  | Except.error e, Except.error f =>
    if h : e = f then Decidable.isTrue (by rw [h])
    else Decidable.isFalse (by intro hc; injection hc; exact h (by assumption))
  | Except.ok x, Except.ok y =>
    if h : x = y then Decidable.isTrue (by rw [h])
    else Decidable.isFalse (by intro hc; injection hc; exact h (by assumption))
  | Except.error _, Except.ok _ => Decidable.isFalse (fun hc => Except.noConfusion hc)
  | Except.ok _, Except.error _ => Decidable.isFalse (fun hc => Except.noConfusion hc)

/-- Python dict assignment `d[k] = v`: replaces the value in place when the
key is present (preserving its position, as CPython dicts do), otherwise
appends the new binding at the end (insertion order). -/
def dinsert {β : Type} (d : List (String × β)) (k : String) (v : β) : List (String × β) :=
  if (List.lookup k d).isSome then
    d.map (fun p => if p.1 = k then (k, v) else p)
  else
    d ++ [(k, v)]

/-- Python dict `pop(k)` / key removal: drops the binding for `k`, keeping
every other binding in order. -/
def dpop {β : Type} (d : List (String × β)) (k : String) : List (String × β) :=
  d.filter (fun p => p.1 ≠ k)

/-- A Python exception as observable by a caller: its class and message.
Both error paths of `cached_get` raise `requests.RequestException`. -/
structure PyException where
  cls : String
  msg : String
deriving DecidableEq, Repr

/-- The parts of `requests.Response` the code reads: `status_code` and the
body (`content` / `text`). -/
structure Response where
  status_code : Nat
  content : String
deriving DecidableEq, Repr

/-- Outcome of one `requests.get(url)` call: either a response object or a
transport-level `requests.RequestException`. -/
inductive AttemptOutcome where
  | resp (r : Response)
  | exc (e : PyException)
deriving DecidableEq, Repr

/-- One row of the fetch log `request_log.parquet`
(helper.py lines 128-135): filename, url, timestamp, status code. -/
structure LogEntry where
  filename : String
  url : String
  timestamp : Nat
  status_code : Nat
deriving DecidableEq, Repr

/-- The durable state touched by `cached_get`: the per-URL content cache
(the `.html` files under the request cache directory, keyed here by URL —
the on-disk naming scheme is declared out of scope by the spec), the fetch
log, and a counter of network requests performed. -/
structure FetchState where
  cache : List (String × String)
  log : List LogEntry
  netCalls : Nat
deriving DecidableEq, Repr

/-- The cache filename recorded in the log row. The concrete derivation
(truncated name plus truncated sha256) is part of the out-of-scope on-disk
naming scheme; it is a deterministic function of the URL, modelled as the
URL itself. -/
def logName (url : String) : String := url

/-- The log update of helper.py lines 137-149: drop any existing row for
this URL and append the new row (`log_df.filter(url != url)` then concat). -/
def updateLog (log : List LogEntry) (e : LogEntry) : List LogEntry :=
  (log.filter (fun r => r.url != e.url)) ++ [e]

/-- The message of the exception raised when the retry loop exhausts all
attempts: `Failed to fetch {url} after {max_retries} attempts`
(helper.py lines 159-161). -/
def exhaustedMsg (url : String) (maxRetries : Nat) : String :=
  "Failed to fetch " ++ url ++ " after " ++ Nat.repr maxRetries ++ " attempts"

/-- The exception raised after the retry loop: a fresh
`requests.RequestException` with the exhausted-retries message. -/
def exhaustedExc (url : String) (maxRetries : Nat) : PyException :=
  { cls := "RequestException", msg := exhaustedMsg url maxRetries }

/-- The retry loop of `cached_get` (helper.py lines 121-161).
`rem` counts the attempts still available (initially `max_retries`), `i` is
the current 0-based attempt index (only used to consult the network oracle
`net`). Each iteration performs one `requests.get` (counted in `netCalls`).
A 200 response writes the cache file, replaces the log row for this URL and
returns. A non-200 response just falls through to the next attempt. A
transport exception is re-raised as-is when this was the last attempt
(`attempt == max_retries - 1`, i.e. `rem = 0` after this one), otherwise it
is swallowed and the loop continues. Falling off the end of the loop raises
the exhausted-retries `RequestException`. -/
def retryLoop (url : String) (ts : Nat) (maxRetries : Nat) (net : Nat → AttemptOutcome) :
    Nat → Nat → FetchState → Except PyException Response × FetchState
  | 0, _, s => (Except.error (exhaustedExc url maxRetries), s)
  | rem + 1, i, s =>
    let s1 : FetchState := { s with netCalls := s.netCalls + 1 }
    match net i with
    | AttemptOutcome.resp r =>
      if r.status_code = 200 then
        (Except.ok r,
          { s1 with
              cache := dinsert s1.cache url r.content,
              log := updateLog s1.log
                { filename := logName url, url := url,
                  timestamp := ts, status_code := r.status_code } })
      else
        retryLoop url ts maxRetries net rem (i + 1) s1
    | AttemptOutcome.exc e =>
      if rem = 0 then (Except.error e, s1)
      else retryLoop url ts maxRetries net rem (i + 1) s1

/-- `cached_get` (helper.py lines 82-161). If `force` is false and a cache
entry exists for the URL, a synthetic 200 response holding the cached bytes
is returned with no network access and no state change; otherwise the retry
loop runs. `net` is the oracle giving the outcome of each successive
`requests.get`; `ts` is the timestamp `datetime.now()` would record. -/
def cached_get (url : String) (force : Bool) (maxRetries : Nat)
    (net : Nat → AttemptOutcome) (ts : Nat) (s : FetchState) :
    Except PyException Response × FetchState :=
  match force, List.lookup url s.cache with
  | false, some c => (Except.ok { status_code := 200, content := c }, s)
  | _, _ => retryLoop url ts maxRetries net maxRetries 0 s

/-! ### Register crawl (parse.py, `parse_main_register`, lines 15-63)

The per-page work of the crawl is: fetch the page, stop on a non-200
status, search the body for `var dataSet = [...]` and stop when absent,
otherwise JSON-parse the sanitized match and extend the accumulator. The
body-level regex search and JSON decoding are abstracted into the page
oracle: a page either carries a parsed entry list or no `dataSet` match. -/

/-- What the crawl observes about one listing page: the fetch status and,
when the body contains a `var dataSet = [...]` match, the parsed entries. -/
structure PageResp (α : Type) where
  status : Nat
  data : Option (List α)
deriving DecidableEq, Repr

/-- The `while True` loop of `parse_main_register` (parse.py lines 23-40),
with explicit fuel standing for an upper bound on the number of iterations
actually performed (the theorems only touch runs that terminate within the
fuel). Alongside the accumulated entries it returns the list of page
indices the loop attempted to fetch, in order. -/
def crawl_loop {α : Type} (fetch : Nat → PageResp α) :
    Nat → Nat → List α → List Nat → List α × List Nat
  | 0, _, acc, visited => (acc, visited)
  | fuel + 1, page, acc, visited =>
    let r := fetch page
    if r.status ≠ 200 then (acc, visited ++ [page])
    else
      match r.data with
      | none => (acc, visited ++ [page])
      | some d => crawl_loop fetch fuel (page + 1) (acc ++ d) (visited ++ [page])

/-- The crawl of `parse_main_register`: starts at page 1 with an empty
accumulator. Page 1 is the base URL, page `n ≥ 2` the suffixed URL; the
oracle is indexed by the page number. -/
def parse_main_register_crawl {α : Type} (fetch : Nat → PageResp α) (fuel : Nat) :
    List α × List Nat :=
  crawl_loop fetch fuel 1 [] []

/-! ### Detail-page top table (parse.py, `parse_medicine_page_top`, lines 75-108) -/

/-- One entry of the nested ATC metadata: a dict with a hierarchy `level`
and a `code`. -/
structure LevelEntry where
  level : String
  code : String
deriving DecidableEq, Repr

/-- The `meta` payload of a product-information item, whose JSON shape
depends on the item's tag: nested ATC level lists for `atc`, a URL list for
`ema_links`, nothing relevant otherwise. -/
inductive MetaVal where
  | atc (entries : List (List LevelEntry))
  | links (urls : List String)
  | nothing
deriving DecidableEq, Repr

/-- One item of the embedded `dataSet_product_information` array: its
`type` tag, its `value`, and its `meta` payload. -/
structure PIItem where
  type : String
  value : String
  meta : MetaVal
deriving DecidableEq, Repr

/-- The nested loop of the `atc` branch (parse.py lines 94-99): walk the
metadata lists in order and collect the codes of entries whose hierarchy
level is the string `"5"`. -/
def atcCodes (meta : List (List LevelEntry)) : List String :=
  meta.foldl
    (fun acc atc_entry =>
      atc_entry.foldl
        (fun acc2 level_dict =>
          if level_dict.level = "5" then acc2 ++ [level_dict.code] else acc2)
        acc)
    []

/-- Projection of a `meta` payload as the ATC nested lists (the shape the
`atc` branch iterates over). -/
def MetaVal.atcEntries : MetaVal → List (List LevelEntry)
  | MetaVal.atc es => es
  | _ => []

/-- Projection of a `meta` payload as the EMA link list (the shape the
`ema_links` branch iterates over). -/
def MetaVal.linkUrls : MetaVal → List String
  | MetaVal.links us => us
  | _ => []

/-- The dispatch of `parse_medicine_page_top` for a single item
(parse.py lines 88-107): the `match` on `item["type"]`. Unknown tags and
`orphan_links` leave the dict unchanged (unknown ones are logged). -/
def piStep (cleaned : List (String × String)) (item : PIItem) : List (String × String) :=
  match item.type with
  | "eu_num" => dinsert cleaned "eu_number" item.value
  | "name" | "inn" | "indication" | "mah" => dinsert cleaned item.type item.value
  | "atc" => dinsert cleaned "atc" (String.intercalate ";" (atcCodes item.meta.atcEntries))
  | "ema_links" => dinsert cleaned "ema_links" (String.intercalate ";" item.meta.linkUrls)
  | "orphan_links" => cleaned
  | _ => cleaned

/-- The `cleaned_data` dict built by `parse_medicine_page_top` from the
items of the embedded `dataSet_product_information` array. -/
def parse_items (items : List PIItem) : List (String × String) :=
  items.foldl piStep []

/-! ### Listing/detail merge (parse.py, `medicine_maintable`, lines 111-120) -/

/-- The listing-derived row fed to `medicine_maintable`: the flattened
fields produced by `parse_main_register` (lines 43-61). -/
structure ListingRow where
  eu_number : String
  pre : String
  id : Int
  name : String
  inn : String
  indication : String
  company : String
deriving DecidableEq, Repr

/-- A failed `assert row[type_] == v` in `medicine_maintable` (line 119):
an `AssertionError` carrying the field and the two disagreeing values. -/
inductive MergeError where
  | assertionError (field expected actual : String)
deriving DecidableEq, Repr

/-- One iteration of the consistency loop of `medicine_maintable`
(lines 115-119): skip the field when absent from the detail dict, otherwise
pop it and assert it equals the listing value. -/
def checkField (rowVal : String) (k : String) (data : List (String × String)) :
    Except MergeError (List (String × String)) :=
  match List.lookup k data with
  | none => Except.ok data
  | some v =>
    if rowVal = v then Except.ok (dpop data k)
    else Except.error (MergeError.assertionError k rowVal v)

/-- `medicine_maintable` (parse.py lines 111-120), with the detail page's
product-information items passed explicitly in place of the fetch performed
by `parse_medicine_page_top(row["id"])`: pop `indication` when present,
then check and pop `name`, `eu_number`, `inn` in that order against the
listing row, propagating an `AssertionError` on any disagreement. -/
def medicine_maintable (row : ListingRow) (items : List PIItem) :
    Except MergeError (List (String × String)) :=
  let data0 := parse_items items
  let data1 := dpop data0 "indication"
  match checkField row.name "name" data1 with
  | Except.error e => Except.error e
  | Except.ok data2 =>
    match checkField row.eu_number "eu_number" data2 with
    | Except.error e => Except.error e
    | Except.ok data3 =>
      match checkField row.inn "inn" data3 with
      | Except.error e => Except.error e
      | Except.ok data4 => Except.ok data4

/-- Agreement of a listing value with an optional detail value: vacuous
when the detail dict lacks the field, equality when it has it. -/
def agreesB (o : Option String) (w : String) : Bool :=
  match o with
  | none => true
  | some v => w == v

/-! ### Procedure history (parse.py, `parse_procedures`, lines 123-171) -/

/-- Python `s.split(c)` for a one-character separator, on the character
list of the string (structurally recursive so it evaluates in the kernel;
`String.splitOn` agrees on these inputs but does not reduce). -/
def pySplitChar (sep : Char) : List Char → List Char → List String
  | [], cur => [String.mk cur.reverse]
  | c :: cs, cur =>
    if c = sep then String.mk cur.reverse :: pySplitChar sep cs []
    else pySplitChar sep cs (c :: cur)

/-- `dec_date.split("-")[0]` (parse.py line 151): the text before the first
dash. Python indexing `[0]` is total here since `split` never returns an
empty list. -/
def yearOf (dec_date : String) : String :=
  (pySplitChar '-' dec_date.toList []).headD ""

/-- `dec_date.replace("-", "")` (parse.py line 152): drop every dash. -/
def dropDashes (dec_date : String) : String :=
  String.mk (dec_date.toList.filter (fun c => c ≠ '-'))

/-- The `decision` sub-dict of a procedure entry: `number` and `date`. -/
structure Decision where
  number : Option String
  date : Option String
deriving DecidableEq, Repr

/-- One entry of a `files_dec` / `files_anx` list: the language `code`. -/
structure FileEntry where
  code : String
deriving DecidableEq, Repr

/-- One entry of the embedded `dataSet_proc` array, with the fields
`parse_procedures` reads (`rec.get` misses become `none`). -/
structure ProcRec where
  id : String
  closed : Option String
  type : Option String
  ema_number : Option String
  decision : Option Decision
  files_dec : Option (List FileEntry)
  files_anx : Option (List FileEntry)
deriving DecidableEq, Repr

/-- `rec.get("decision", {}).get("date")`. -/
def decisionDate (rec : ProcRec) : Option String :=
  match rec.decision with
  | none => none
  | some d => d.date

/-- `rec.get("decision", {}).get("number")`. -/
def decisionNumber (rec : ProcRec) : Option String :=
  match rec.decision with
  | none => none
  | some d => d.number

/-- The row dict `parse_procedures` builds per procedure entry; the three
URL fields are `none` when the corresponding dict key is never assigned. -/
structure ProcRow where
  close_date : Option String
  procedure_type : Option String
  ema_number : Option String
  decision_number : Option String
  decisions_en : Option String
  annexes_en : Option String
  summary_en : Option String
deriving DecidableEq, Repr

/-- The fixed document base URL of `parse_procedures` (parse.py line 136). -/
def procBaseUrl : String := "https://ec.europa.eu/health/documents/community-register"

/-- The body of the per-entry loop of `parse_procedures` (parse.py lines
139-164): base fields from `rec`; then, only when the decision date is
truthy (Python `if dec_date:` — absent or empty means skip), build the
canonical path from the year, the digits-only date and the procedure id,
and attach `decisions_en` when an English decision file is listed and
`annexes_en`/`summary_en` (the same URL) when an English annex file is. -/
def procRow (rec : ProcRec) : ProcRow :=
  let base : ProcRow :=
    { close_date := rec.closed
      procedure_type := rec.type
      ema_number := rec.ema_number
      decision_number := decisionNumber rec
      decisions_en := none
      annexes_en := none
      summary_en := none }
  match decisionDate rec with
  | none => base
  | some dec_date =>
    if dec_date = "" then base
    else
      let url_path := procBaseUrl ++ "/" ++ yearOf dec_date ++ "/" ++ dropDashes dec_date ++ rec.id
      let files_dec := rec.files_dec.getD []
      let files_anx := rec.files_anx.getD []
      let row1 :=
        if files_dec.any (fun f => f.code == "en") then
          { base with decisions_en := some (url_path ++ "/dec_" ++ rec.id ++ "_en.pdf") }
        else base
      if files_anx.any (fun f => f.code == "en") then
        { row1 with
            annexes_en := some (url_path ++ "/anx_" ++ rec.id ++ "_en.pdf")
            summary_en := some (url_path ++ "/anx_" ++ rec.id ++ "_en.pdf") }
      else row1

/-- `parse_procedures` over an already-located and decoded `dataSet_proc`
array: the list of row dicts fed to the result DataFrame. -/
def parse_procedures (recs : List ProcRec) : List ProcRow :=
  recs.map procRow

/-- `parse_procedures_rows` (parse.py lines 169-171): the same rows as a
list of dicts (`to_dicts` when the frame is non-empty, `[]` otherwise —
both collapse to the row list here). -/
def parse_procedures_rows (recs : List ProcRec) : List ProcRow :=
  parse_procedures recs

/-! ### Table materialization (data.py `procedures`, helper.py `cache_df`) -/

/-- A Python `IndexError`, as raised by `parse_procedures_rows(1)[0]` on an
empty list (data.py line 100). -/
inductive PyRuntimeError where
  | indexError
deriving DecidableEq, Repr

/-- The schema-then-map structure of `procedures()` (data.py lines 97-128),
with the per-product-id row lists supplied by `parseRows` (product id 1 is
the hard-coded schema representative) and the product ids of the register
by `ids`. The second component records which product ids were actually
processed by the per-product mapping. Indexing `[0]` into an empty list for
the schema raises `IndexError` before any product is processed. -/
def procedures_run (parseRows : Int → List ProcRow) (ids : List Int) :
    Except PyRuntimeError (ProcRow × List (Int × List ProcRow)) × List Int :=
  match parseRows 1 with
  | [] => (Except.error PyRuntimeError.indexError, [])
  | r :: _ =>
    (Except.ok (r, ids.map (fun i => (i, parseRows i))), ids)

/-- The snapshot store and network-activity counter seen by the `cache_df`
wrapper: the parquet files under the cache folder, keyed by file stem, and
a count of network fetches performed so far. `δ` is the table type. -/
structure CState (δ : Type) where
  store : List (String × δ)
  fetches : Nat
deriving DecidableEq, Repr

/-- The wrapper produced by `cache_df` (helper.py lines 63-77) around a
function `func` whose effects are modelled as a state transformer (so a
computation such as `medicines_register` can perform network fetches,
visible in `CState.fetches`). `cache_key` is the optional explicit key,
`fname` the function's `__name__`. On a hit the snapshot is returned with
the state untouched; on a miss the function runs, its result is written to
the store (`write_parquet` overwrites), and the result is returned. The
call's `args`/`kwargs` are forwarded to `func` but play no part in the
cache lookup. -/
def cache_df_wrapper {α δ : Type} (cache_key : Option String) (fname : String)
    (func : α → CState δ → δ × CState δ) (args : α) (s : CState δ) : δ × CState δ :=
  let filename := cache_key.getD fname
  match List.lookup filename s.store with
  | some df => (df, s)
  | none =>
    let p := func args s
    (p.1, { p.2 with store := dinsert p.2.store filename p.1 })

/-! ### Concrete example inputs (used to instantiate the theorems) -/

/-- A three-listing-page register site: pages 1 and 2 respond 200 with a
`dataSet` array, page 3 is absent (404), mirroring the end of pagination. -/
def fetchW : Nat → PageResp Nat := fun i =>
  if i < 3 then { status := 200, data := some [i, i * 10] } else { status := 404, data := none }

/-- The entries each existing page of `fetchW` carries. -/
def lsW : Nat → List Nat := fun i => [i, i * 10]

/-- A network where every attempt yields a 404 response (no exception). -/
def netNon200 : Nat → AttemptOutcome := fun _ =>
  AttemptOutcome.resp { status_code := 404, content := "" }

/-- A network where the first two attempts yield 404 and the third raises a
transport `RequestException`. -/
def netBoom : Nat → AttemptOutcome := fun i =>
  if i = 2 then AttemptOutcome.exc { cls := "RequestException", msg := "boom" }
  else AttemptOutcome.resp { status_code := 404, content := "" }

/-- Fresh fetch state: empty cache, empty log. -/
def stEmpty : FetchState := { cache := [], log := [], netCalls := 0 }

/-- Fetch state whose cache already holds a body for URL `"u"`. -/
def stCached : FetchState := { cache := [("u", "body")], log := [], netCalls := 0 }

/-- A pre-existing log row for a different URL. -/
def logW : List LogEntry :=
  [{ filename := "fo", url := "other", timestamp := 0, status_code := 200 }]

/-- Two successive successful fetches of URL `"u"`. -/
def esW : List LogEntry :=
  [{ filename := "f1", url := "u", timestamp := 1, status_code := 200 },
   { filename := "f2", url := "u", timestamp := 2, status_code := 200 }]

/-- A listing row agreeing with the detail items `itemsX`. -/
def rowX : ListingRow :=
  { eu_number := "EU/1/20/1", pre := "h", id := 1, name := "X", inn := "I",
    indication := "ind", company := "co" }

/-- Detail items whose `name` agrees with `rowX` plus a detail-only `mah`. -/
def itemsX : List PIItem :=
  [{ type := "name", value := "X", meta := MetaVal.nothing },
   { type := "mah", value := "M", meta := MetaVal.nothing }]

/-- A listing row whose `name` disagrees with the detail items `itemsY`. -/
def rowY : ListingRow :=
  { eu_number := "EU/1/20/2", pre := "h", id := 2, name := "X", inn := "I",
    indication := "ind", company := "co" }

/-- Detail items reporting `name = "Y"`. -/
def itemsY : List PIItem :=
  [{ type := "name", value := "Y", meta := MetaVal.nothing }]

/-- A procedure entry with decision date 2020-03-15, id C123, an English
decision file and no English annex file. -/
def recW : ProcRec :=
  { id := "C123", closed := some "2020-04-01", type := some "Centralised",
    ema_number := some "EMEA/1", decision := some { number := some "D1", date := some "2020-03-15" },
    files_dec := some [{ code := "fr" }, { code := "en" }],
    files_anx := some [{ code := "fr" }] }

/-- A procedure entry with no decision date but English files of both
kinds listed. -/
def recND : ProcRec :=
  { id := "C9", closed := none, type := none, ema_number := none, decision := none,
    files_dec := some [{ code := "en" }], files_anx := some [{ code := "en" }] }

/-- A snapshot store already holding a table for `medicines_register`. -/
def csW : CState Nat := { store := [("medicines_register", 7)], fetches := 5 }

/-- An empty snapshot store. -/
def csE : CState Nat := { store := [], fetches := 0 }

/-- A computation that returns table `9` and performs one network fetch. -/
def funcW : List Nat → CState Nat → Nat × CState Nat :=
  fun _ s => (9, { s with fetches := s.fetches + 1 })

/-! ### Association-list lemmas -/

theorem lookup_dpop_ne {β : Type} (d : List (String × β)) (k j : String) (h : k ≠ j) :
    List.lookup k (dpop d j) = List.lookup k d := by
  induction d with
  | nil => rfl
  | cons p d ih =>
    rcases p with ⟨a, b⟩
    by_cases haj : a = j
    · have h2 : (k == a) = false := beq_eq_false_iff_ne.mpr (by rw [haj]; exact h)
      have h1 : dpop ((a, b) :: d) j = dpop d j := by simp [dpop, List.filter, haj]
      rw [h1, ih]
      simp [List.lookup, h2]
    · have h1 : dpop ((a, b) :: d) j = (a, b) :: dpop d j := by simp [dpop, List.filter, haj]
      rw [h1]
      simp only [List.lookup]
      cases hka : (k == a) with
      | true => rfl
      | false => exact ih

theorem dpop_of_lookup_none {β : Type} (d : List (String × β)) (k : String)
    (h : List.lookup k d = none) : dpop d k = d := by
  induction d with
  | nil => rfl
  | cons p d ih =>
    rcases p with ⟨a, b⟩
    by_cases hak : a = k
    · subst hak
      simp [List.lookup] at h
    · have hne : (k == a) = false := beq_eq_false_iff_ne.mpr (fun hka => hak hka.symm)
      simp only [List.lookup, hne] at h
      have h1 : dpop ((a, b) :: d) k = (a, b) :: dpop d k := by simp [dpop, List.filter, hak]
      rw [h1, ih h]

theorem lookup_map_replace {β : Type} (d : List (String × β)) (k : String) (v : β)
    (h : (List.lookup k d).isSome) :
    List.lookup k (d.map (fun p => if p.1 = k then (k, v) else p)) = some v := by
  induction d with
  | nil => simp [List.lookup] at h
  | cons p d ih =>
    rcases p with ⟨a, b⟩
    by_cases hak : a = k
    · subst hak
      have hmap : ((a, b) :: d).map (fun p => if p.1 = a then (a, v) else p)
          = (a, v) :: d.map (fun p => if p.1 = a then (a, v) else p) := by
        simp
      rw [hmap]
      simp [List.lookup]
    · have hne : (k == a) = false := beq_eq_false_iff_ne.mpr (fun hka => hak hka.symm)
      have hmap : ((a, b) :: d).map (fun p => if p.1 = k then (k, v) else p)
          = (a, b) :: d.map (fun p => if p.1 = k then (k, v) else p) := by
        simp [hak]
      rw [hmap]
      simp only [List.lookup, hne]
      apply ih
      simpa [List.lookup, hne] using h

theorem lookup_append_single {β : Type} (d : List (String × β)) (k : String) (v : β)
    (h : List.lookup k d = none) :
    List.lookup k (d ++ [(k, v)]) = some v := by
  induction d with
  | nil => simp [List.lookup]
  | cons p d ih =>
    rcases p with ⟨a, b⟩
    by_cases hak : a = k
    · subst hak
      simp [List.lookup] at h
    · have hne : (k == a) = false := beq_eq_false_iff_ne.mpr (fun hka => hak hka.symm)
      simp only [List.lookup, hne] at h
      have : ((a, b) :: d) ++ [(k, v)] = (a, b) :: (d ++ [(k, v)]) := rfl
      rw [this]
      simp only [List.lookup, hne]
      exact ih h

/-! ### Retry-loop lemmas -/

theorem retryLoop_all_non200 (url : String) (ts maxR : Nat) (net : Nat → AttemptOutcome)
    (rem : Nat) :
    ∀ i s, (∀ j, j < rem → ∃ r, net (i + j) = AttemptOutcome.resp r ∧ r.status_code ≠ 200) →
      (retryLoop url ts maxR net rem i s).1 = Except.error (exhaustedExc url maxR) := by
  induction rem with
  | zero => intro i s _; rfl
  | succ rem ih =>
    intro i s h
    obtain ⟨r, hr, hs⟩ := h 0 (Nat.succ_pos rem)
    rw [Nat.add_zero] at hr
    simp only [retryLoop, hr]
    rw [if_neg hs]
    apply ih
    intro j hj
    obtain ⟨r2, hr2, hs2⟩ := h (j + 1) (Nat.succ_lt_succ hj)
    rw [show i + (j + 1) = (i + 1) + j by omega] at hr2
    exact ⟨r2, hr2, hs2⟩

theorem cached_get_miss (url : String) (force : Bool) (maxR : Nat)
    (net : Nat → AttemptOutcome) (ts : Nat) (s : FetchState)
    (h : force = true ∨ List.lookup url s.cache = none) :
    cached_get url force maxR net ts s = retryLoop url ts maxR net maxR 0 s := by
  unfold cached_get
  rcases h with h | h
  · subst h
    cases List.lookup url s.cache <;> rfl
  · rw [h]
    cases force <;> rfl

/-! ### Crawl lemmas -/

theorem crawl_loop_pages {α : Type} (fetch : Nat → PageResp α) (N : Nat) (ls : Nat → List α)
    (hok : ∀ i, 1 ≤ i → i < N → (fetch i).status = 200 ∧ (fetch i).data = some (ls i))
    (hstop : (fetch N).status ≠ 200) :
    ∀ fuel k acc visited, 1 ≤ k → k ≤ N → N + 1 - k ≤ fuel →
      crawl_loop fetch fuel k acc visited
        = (acc ++ (List.range' k (N - k)).flatMap ls, visited ++ List.range' k (N - k + 1)) := by
  intro fuel
  induction fuel with
  | zero => intro k acc visited h1 h2 h3; omega
  | succ fuel ih =>
    intro k acc visited h1 h2 h3
    by_cases hk : k = N
    · subst hk
      simp only [crawl_loop]
      rw [if_pos hstop, Nat.sub_self]
      simp [List.range']
    · have hkN : k < N := lt_of_le_of_ne h2 hk
      obtain ⟨hst, hdata⟩ := hok k h1 hkN
      simp only [crawl_loop, hst, hdata]
      rw [ih (k + 1) (acc ++ ls k) (visited ++ [k]) (by omega) (by omega) (by omega)]
      have e1 : List.range' k (N - k) = k :: List.range' (k + 1) (N - (k + 1)) := by
        rw [show N - k = (N - (k + 1)) + 1 by omega, List.range'_succ]
      have e2 : List.range' k (N - k + 1) = k :: List.range' (k + 1) (N - (k + 1) + 1) := by
        rw [show N - k + 1 = ((N - (k + 1)) + 1) + 1 by omega, List.range'_succ]
      rw [e1, e2]
      simp [List.append_assoc]

/-! ### ATC extraction lemmas -/

theorem atc_inner_foldl (entry : List LevelEntry) (acc : List String) :
    entry.foldl (fun acc2 level_dict =>
        if level_dict.level = "5" then acc2 ++ [level_dict.code] else acc2) acc
      = acc ++ (entry.filter (fun e => e.level == "5")).map LevelEntry.code := by
  induction entry generalizing acc with
  | nil => simp
  | cons ld entry ih =>
    by_cases h : ld.level = "5"
    · simp only [List.foldl, if_pos h]
      rw [ih]
      have hf : (ld :: entry).filter (fun e => e.level == "5")
          = ld :: entry.filter (fun e => e.level == "5") := by
        simp [List.filter, h]
      rw [hf]
      simp [List.append_assoc]
    · simp only [List.foldl, if_neg h]
      rw [ih]
      have hf : (ld :: entry).filter (fun e => e.level == "5")
          = entry.filter (fun e => e.level == "5") := by
        simp [List.filter, beq_eq_false_iff_ne.mpr h]
      rw [hf]

theorem atc_outer_foldl (meta : List (List LevelEntry)) :
    ∀ acc : List String,
      meta.foldl (fun acc atc_entry =>
          atc_entry.foldl (fun acc2 level_dict =>
            if level_dict.level = "5" then acc2 ++ [level_dict.code] else acc2) acc) acc
        = acc ++ (meta.flatten.filter (fun e => e.level == "5")).map LevelEntry.code := by
  induction meta with
  | nil => intro acc; simp
  | cons entry meta ih =>
    intro acc
    simp only [List.foldl]
    rw [atc_inner_foldl, ih]
    simp [List.filter_append, List.append_assoc]

theorem atcCodes_eq (meta : List (List LevelEntry)) :
    atcCodes meta = (meta.flatten.filter (fun e => e.level == "5")).map LevelEntry.code := by
  have h := atc_outer_foldl meta []
  simpa [atcCodes] using h

/-! ### Merge lemmas -/

theorem checkField_of_agrees (w k : String) (data : List (String × String))
    (h : agreesB (List.lookup k data) w = true) :
    checkField w k data = Except.ok (dpop data k) := by
  unfold checkField
  cases hl : List.lookup k data with
  | none => rw [dpop_of_lookup_none data k hl]
  | some v =>
    rw [hl] at h
    have hwv : w = v := by simpa [agreesB] using h
    simp [hwv]

theorem checkField_of_disagrees (w k : String) (data : List (String × String))
    (h : agreesB (List.lookup k data) w = false) :
    ∃ e, checkField w k data = Except.error e := by
  unfold checkField
  cases hl : List.lookup k data with
  | none => rw [hl] at h; simp [agreesB] at h
  | some v =>
    rw [hl] at h
    have hwv : ¬ w = v := by simpa [agreesB] using h
    exact ⟨MergeError.assertionError k w v, by simp [hwv]⟩

theorem maintable_ok (row : ListingRow) (items : List PIItem)
    (hn : agreesB (List.lookup "name" (parse_items items)) row.name = true)
    (he : agreesB (List.lookup "eu_number" (parse_items items)) row.eu_number = true)
    (hi : agreesB (List.lookup "inn" (parse_items items)) row.inn = true) :
    medicine_maintable row items
      = Except.ok (dpop (dpop (dpop (dpop (parse_items items) "indication") "name") "eu_number") "inn") := by
  unfold medicine_maintable
  have h1 : checkField row.name "name" (dpop (parse_items items) "indication")
      = Except.ok (dpop (dpop (parse_items items) "indication") "name") := by
    apply checkField_of_agrees
    rw [lookup_dpop_ne _ "name" "indication" (by decide)]
    exact hn
  have h2 : checkField row.eu_number "eu_number" (dpop (dpop (parse_items items) "indication") "name")
      = Except.ok (dpop (dpop (dpop (parse_items items) "indication") "name") "eu_number") := by
    apply checkField_of_agrees
    rw [lookup_dpop_ne _ "eu_number" "name" (by decide),
        lookup_dpop_ne _ "eu_number" "indication" (by decide)]
    exact he
  have h3 : checkField row.inn "inn" (dpop (dpop (dpop (parse_items items) "indication") "name") "eu_number")
      = Except.ok (dpop (dpop (dpop (dpop (parse_items items) "indication") "name") "eu_number") "inn") := by
    apply checkField_of_agrees
    rw [lookup_dpop_ne _ "inn" "eu_number" (by decide),
        lookup_dpop_ne _ "inn" "name" (by decide),
        lookup_dpop_ne _ "inn" "indication" (by decide)]
    exact hi
  simp [h1, h2, h3]

theorem maintable_error (row : ListingRow) (items : List PIItem)
    (hbad : (agreesB (List.lookup "name" (parse_items items)) row.name
          && agreesB (List.lookup "eu_number" (parse_items items)) row.eu_number
          && agreesB (List.lookup "inn" (parse_items items)) row.inn) = false) :
    ∃ e, medicine_maintable row items = Except.error e := by
  unfold medicine_maintable
  cases hn : agreesB (List.lookup "name" (parse_items items)) row.name with
  | false =>
    obtain ⟨e, he⟩ := checkField_of_disagrees row.name "name" (dpop (parse_items items) "indication")
      (by rw [lookup_dpop_ne _ "name" "indication" (by decide)]; exact hn)
    exact ⟨e, by simp [he]⟩
  | true =>
    have h1 : checkField row.name "name" (dpop (parse_items items) "indication")
        = Except.ok (dpop (dpop (parse_items items) "indication") "name") := by
      apply checkField_of_agrees
      rw [lookup_dpop_ne _ "name" "indication" (by decide)]
      exact hn
    cases heu : agreesB (List.lookup "eu_number" (parse_items items)) row.eu_number with
    | false =>
      obtain ⟨e, he⟩ := checkField_of_disagrees row.eu_number "eu_number"
        (dpop (dpop (parse_items items) "indication") "name")
        (by
          rw [lookup_dpop_ne _ "eu_number" "name" (by decide),
              lookup_dpop_ne _ "eu_number" "indication" (by decide)]
          exact heu)
      exact ⟨e, by simp [h1, he]⟩
    | true =>
      have hinn : agreesB (List.lookup "inn" (parse_items items)) row.inn = false := by
        rw [hn, heu] at hbad
        simpa using hbad
      have h2 : checkField row.eu_number "eu_number" (dpop (dpop (parse_items items) "indication") "name")
          = Except.ok (dpop (dpop (dpop (parse_items items) "indication") "name") "eu_number") := by
        apply checkField_of_agrees
        rw [lookup_dpop_ne _ "eu_number" "name" (by decide),
            lookup_dpop_ne _ "eu_number" "indication" (by decide)]
        exact heu
      obtain ⟨e, he⟩ := checkField_of_disagrees row.inn "inn"
        (dpop (dpop (dpop (parse_items items) "indication") "name") "eu_number")
        (by
          rw [lookup_dpop_ne _ "inn" "eu_number" (by decide),
              lookup_dpop_ne _ "inn" "name" (by decide),
              lookup_dpop_ne _ "inn" "indication" (by decide)]
          exact hinn)
      exact ⟨e, by simp [h1, h2, he]⟩

/-! ### Fetch-log lemmas -/

theorem filter_neq_then_eq (log : List LogEntry) (u : String) :
    (log.filter (fun r => r.url != u)).filter (fun r => r.url == u) = [] := by
  induction log with
  | nil => rfl
  | cons e log ih =>
    cases h : (e.url == u) with
    | true =>
      have h1 : (e :: log).filter (fun r => r.url != u) = log.filter (fun r => r.url != u) := by
        simp [List.filter, bne, h]
      rw [h1]
      exact ih
    | false =>
      have h1 : (e :: log).filter (fun r => r.url != u)
          = e :: log.filter (fun r => r.url != u) := by
        simp [List.filter, bne, h]
      rw [h1]
      have h2 : (e :: log.filter (fun r => r.url != u)).filter (fun r => r.url == u)
          = (log.filter (fun r => r.url != u)).filter (fun r => r.url == u) := by
        simp [List.filter, h]
      rw [h2]
      exact ih

theorem filter_neq_then_other (log : List LogEntry) (w u' : String) (h : u' ≠ w) :
    (log.filter (fun r => r.url != w)).filter (fun r => r.url == u')
      = log.filter (fun r => r.url == u') := by
  induction log with
  | nil => rfl
  | cons e log ih =>
    by_cases hw : e.url = w
    · have h1 : (e :: log).filter (fun r => r.url != w) = log.filter (fun r => r.url != w) := by
        simp [List.filter, bne, hw]
      have h2 : (e :: log).filter (fun r => r.url == u') = log.filter (fun r => r.url == u') := by
        have : (e.url == u') = false := beq_eq_false_iff_ne.mpr (by rw [hw]; exact fun hx => h hx.symm)
        simp [List.filter, this]
      rw [h1, h2]
      exact ih
    · have h1 : (e :: log).filter (fun r => r.url != w)
          = e :: log.filter (fun r => r.url != w) := by
        simp [List.filter, bne, beq_eq_false_iff_ne.mpr hw]
      rw [h1]
      cases h2 : (e.url == u') with
      | true =>
        have h3 : (e :: log.filter (fun r => r.url != w)).filter (fun r => r.url == u')
            = e :: (log.filter (fun r => r.url != w)).filter (fun r => r.url == u') := by
          simp [List.filter, h2]
        have h4 : (e :: log).filter (fun r => r.url == u')
            = e :: log.filter (fun r => r.url == u') := by
          simp [List.filter, h2]
        rw [h3, h4, ih]
      | false =>
        have h3 : (e :: log.filter (fun r => r.url != w)).filter (fun r => r.url == u')
            = (log.filter (fun r => r.url != w)).filter (fun r => r.url == u') := by
          simp [List.filter, h2]
        have h4 : (e :: log).filter (fun r => r.url == u')
            = log.filter (fun r => r.url == u') := by
          simp [List.filter, h2]
        rw [h3, h4, ih]

theorem filter_updateLog_self (log : List LogEntry) (e : LogEntry) :
    (updateLog log e).filter (fun r => r.url == e.url) = [e] := by
  unfold updateLog
  rw [List.filter_append, filter_neq_then_eq]
  simp [List.filter]

theorem filter_updateLog_other (log : List LogEntry) (e : LogEntry) (u' : String)
    (h : u' ≠ e.url) :
    (updateLog log e).filter (fun r => r.url == u') = log.filter (fun r => r.url == u') := by
  unfold updateLog
  rw [List.filter_append, filter_neq_then_other log e.url u' h]
  have h1 : [e].filter (fun r => r.url == u') = [] := by
    simp [List.filter, beq_eq_false_iff_ne.mpr (fun hx => h hx.symm)]
  rw [h1, List.append_nil]

theorem lookup_dinsert_self {β : Type} (d : List (String × β)) (k : String) (v : β) :
    List.lookup k (dinsert d k v) = some v := by
  unfold dinsert
  by_cases h : (List.lookup k d).isSome
  · simp only [h, if_true]
    exact lookup_map_replace d k v h
  · simp only [h, if_false]
    exact lookup_append_single d k v (by
      cases hl : List.lookup k d with
      | none => rfl
      | some w => rw [hl] at h; simp at h)

theorem foldl_updateLog_spec (u : String) (es : List LogEntry) :
    ∀ log : List LogEntry, (∀ e ∈ es, e.url = u) → es ≠ [] →
      ((es.foldl updateLog log).filter (fun r => r.url == u) = (es.getLast?).toList ∧
       ∀ u', u' ≠ u → (es.foldl updateLog log).filter (fun r => r.url == u')
           = log.filter (fun r => r.url == u')) := by
  induction es with
  | nil => intro log _ h; exact absurd rfl h
  | cons e rest ih =>
    intro log hu _
    have heu : e.url = u := hu e (List.mem_cons_self e rest)
    by_cases hr : rest = []
    · subst hr
      constructor
      · simp only [List.foldl_cons, List.foldl_nil]
        rw [← heu, filter_updateLog_self log e]
        rfl
      · intro u' hu'
        simp only [List.foldl_cons, List.foldl_nil]
        exact filter_updateLog_other log e u' (fun hx => hu' (hx.trans heu))
    · have hfold : (e :: rest).foldl updateLog log = rest.foldl updateLog (updateLog log e) := by
        simp
      obtain ⟨iha, ihb⟩ := ih (updateLog log e) (fun x hx => hu x (List.mem_cons_of_mem e hx)) hr
      constructor
      · rw [hfold, iha]
        cases rest with
        | nil => exact absurd rfl hr
        | cons f rs => rfl
      · intro u' hu'
        rw [hfold, ihb u' hu']
        exact filter_updateLog_other log e u' (fun hx => hu' (hx.trans heu))

/-! ### Claim theorems -/

/-- Claim C1: for every sequence of listing pages in which page `N` is the
first page whose fetch has a non-200 status (and pages `1..N-1` carry a
`dataSet` array), the crawl of `parse_main_register` returns exactly the
concatenation of the entries parsed from pages `1` through `N-1`, attempts
exactly pages `1..N` (page `N` being its normal termination), and never
attempts to fetch page `N+1`. -/
theorem c1_pagination (α : Type) (fetch : Nat → PageResp α) (N fuel : Nat) (ls : Nat → List α)
    (hN : 1 ≤ N) (hfuel : N ≤ fuel)
    (hok : ∀ i, 1 ≤ i → i < N → (fetch i).status = 200 ∧ (fetch i).data = some (ls i))
    (hstop : (fetch N).status ≠ 200) :
    parse_main_register_crawl fetch fuel
      = ((List.range' 1 (N - 1)).flatMap ls, List.range' 1 N) := by
  unfold parse_main_register_crawl
  rw [crawl_loop_pages fetch N ls hok hstop fuel 1 [] [] (le_refl 1) hN (by omega)]
  rw [show N - 1 + 1 = N by omega]
  simp

/-- Witness for C1: a site with two listing pages and a 404 on page 3. -/
theorem c1_pagination_witness :
    parse_main_register_crawl fetchW 5 = ((List.range' 1 2).flatMap lsW, List.range' 1 3) :=
  c1_pagination Nat fetchW 3 5 lsW (by decide) (by decide)
    (by intro i h1 h2; interval_cases i <;> exact ⟨rfl, rfl⟩) (by decide)

/-- Claim C2 (amended): when all `max_retries` attempts complete without a
transport exception and none returns status 200, `cached_get` fails with
the explicitly raised exhausted-retries `RequestException` (message
`Failed to fetch {url} after {max_retries} attempts`); its exception class
is `RequestException`, the same class as a propagated transport failure,
so it is distinguished by construction site and message, not by kind. -/
theorem c2_exhausted_retries (url : String) (force : Bool) (maxRetries : Nat)
    (net : Nat → AttemptOutcome) (ts : Nat) (s : FetchState)
    (hnet : ∀ i, i < maxRetries → ∃ r, net i = AttemptOutcome.resp r ∧ r.status_code ≠ 200)
    (hmiss : force = true ∨ List.lookup url s.cache = none) :
    (cached_get url force maxRetries net ts s).1 = Except.error (exhaustedExc url maxRetries) ∧
    exhaustedExc url maxRetries
      = { cls := "RequestException", msg := exhaustedMsg url maxRetries } := by
  constructor
  · rw [cached_get_miss url force maxRetries net ts s hmiss]
    apply retryLoop_all_non200
    intro j hj
    simpa using hnet j hj
  · rfl

/-- Witness for C2: three attempts, all 404, on an empty cache. -/
theorem c2_exhausted_retries_witness :
    (cached_get "u" true 3 netNon200 0 stEmpty).1 = Except.error (exhaustedExc "u" 3) ∧
    exhaustedExc "u" 3 = { cls := "RequestException", msg := exhaustedMsg "u" 3 } :=
  c2_exhausted_retries "u" true 3 netNon200 0 stEmpty
    (fun _ _ => ⟨{ status_code := 404, content := "" }, rfl, by decide⟩) (Or.inl rfl)

/-- Counterexample for C2 as stated: the exhausted-retries error and a
propagated transport failure have the same exception class
(`requests.RequestException`), so the exhausted-retries error is not of a
kind distinct from transport failures — only its message differs. -/
theorem c2_counterexample :
    (cached_get "u" true 3 netNon200 0 stEmpty).1
      = Except.error { cls := "RequestException", msg := "Failed to fetch u after 3 attempts" } ∧
    (cached_get "u" true 3 netBoom 0 stEmpty).1
      = Except.error { cls := "RequestException", msg := "boom" } ∧
    ({ cls := "RequestException", msg := "Failed to fetch u after 3 attempts" } : PyException).cls
      = ({ cls := "RequestException", msg := "boom" } : PyException).cls := by
  refine ⟨by decide, by decide, rfl⟩

/-- Claim C3 (amended): `medicine_maintable` checks each of `name`,
`eu_number`, `inn` present in the detail dict against the listing row and
propagates an `AssertionError` on any mismatch, never returning a value;
when all overlapping fields agree it returns the detail dict with the
`indication` field and the three verified overlap fields removed. -/
theorem c3_merge_consistency (row rowB : ListingRow) (items itemsB : List PIItem)
    (hbad : (agreesB (List.lookup "name" (parse_items items)) row.name
          && agreesB (List.lookup "eu_number" (parse_items items)) row.eu_number
          && agreesB (List.lookup "inn" (parse_items items)) row.inn) = false)
    (hn : agreesB (List.lookup "name" (parse_items itemsB)) rowB.name = true)
    (he : agreesB (List.lookup "eu_number" (parse_items itemsB)) rowB.eu_number = true)
    (hi : agreesB (List.lookup "inn" (parse_items itemsB)) rowB.inn = true) :
    (∃ e, medicine_maintable row items = Except.error e) ∧
    medicine_maintable rowB itemsB
      = Except.ok (dpop (dpop (dpop (dpop (parse_items itemsB) "indication") "name") "eu_number") "inn") :=
  ⟨maintable_error row items hbad, maintable_ok rowB itemsB hn he hi⟩

/-- Witness for C3: a disagreeing `name` fails; an agreeing detail dict
returns with `indication`, `name`, `eu_number`, `inn` removed. -/
theorem c3_merge_witness :
    (∃ e, medicine_maintable rowY itemsY = Except.error e) ∧
    medicine_maintable rowX itemsX
      = Except.ok (dpop (dpop (dpop (dpop (parse_items itemsX) "indication") "name") "eu_number") "inn") :=
  c3_merge_consistency rowY rowX itemsY itemsX (by decide) (by decide) (by decide) (by decide)

/-- Counterexample for C3 as stated: with a detail dict whose `name` agrees
with the listing, the merge returns the detail dict with `name` (and the
other checked overlap fields) removed as well, not merely with
`indication` discarded. -/
theorem c3_counterexample :
    medicine_maintable rowX itemsX = Except.ok [("mah", "M")] ∧
    dpop (parse_items itemsX) "indication" = [("name", "X"), ("mah", "M")] ∧
    (Except.ok [("mah", "M")] : Except MergeError (List (String × String)))
      ≠ Except.ok [("name", "X"), ("mah", "M")] := by
  refine ⟨by decide, by decide, by decide⟩

/-- Claim C4: after any non-empty sequence of successful fetches of URL `u`
applied to any starting log, the log holds exactly one row for `u`, equal
to the entry of the most recent successful fetch (carrying its status and
timestamp), and the rows of every other URL are exactly as in the starting
log. -/
theorem c4_fetch_log (log : List LogEntry) (es : List LogEntry) (u : String)
    (hne : es ≠ []) (hu : ∀ e ∈ es, e.url = u) :
    ((es.foldl updateLog log).filter (fun r => r.url == u) = [es.getLast hne]) ∧
    ∀ u', u' ≠ u → (es.foldl updateLog log).filter (fun r => r.url == u')
        = log.filter (fun r => r.url == u') := by
  obtain ⟨h1, h2⟩ := foldl_updateLog_spec u es log hu hne
  refine ⟨?_, h2⟩
  rw [h1, List.getLast?_eq_getLast es hne]
  rfl

/-- Witness for C4: two fetches of `"u"` on a log holding a row for
`"other"`. -/
theorem c4_fetch_log_witness :
    ((esW.foldl updateLog logW).filter (fun r => r.url == "u")
      = [{ filename := "f2", url := "u", timestamp := 2, status_code := 200 }]) ∧
    ((esW.foldl updateLog logW).filter (fun r => r.url == "other")
      = logW.filter (fun r => r.url == "other")) := by
  constructor
  · have h := (c4_fetch_log logW esW "u" (by decide) (by decide)).1
    simpa using h
  · exact (c4_fetch_log logW esW "u" (by decide) (by decide)).2 "other" (by decide)

/-- Claim C5: once the snapshot store holds a table for the wrapper's key,
the `cache_df` wrapper returns that table with the state untouched (no
recomputation, no fetches); consequently a second call made right after any
first call returns the first call's table and performs zero additional
fetches. -/
theorem c5_snapshot (α δ : Type) (cache_key : Option String) (fname : String)
    (func : α → CState δ → δ × CState δ) (args : α) (s t : CState δ) (df : δ)
    (h : List.lookup (cache_key.getD fname) s.store = some df) :
    cache_df_wrapper cache_key fname func args s = (df, s) ∧
    cache_df_wrapper cache_key fname func args (cache_df_wrapper cache_key fname func args t).2
      = ((cache_df_wrapper cache_key fname func args t).1,
         (cache_df_wrapper cache_key fname func args t).2) ∧
    (cache_df_wrapper cache_key fname func args
        (cache_df_wrapper cache_key fname func args t).2).2.fetches
      = (cache_df_wrapper cache_key fname func args t).2.fetches := by
  have hit : ∀ (u : CState δ) (d : δ), List.lookup (cache_key.getD fname) u.store = some d →
      cache_df_wrapper cache_key fname func args u = (d, u) := by
    intro u d hd
    simp only [cache_df_wrapper]
    rw [hd]
  have hsecond : cache_df_wrapper cache_key fname func args
        (cache_df_wrapper cache_key fname func args t).2
      = ((cache_df_wrapper cache_key fname func args t).1,
         (cache_df_wrapper cache_key fname func args t).2) := by
    cases hl : List.lookup (cache_key.getD fname) t.store with
    | some d =>
      rw [hit t d hl]
      exact hit t d hl
    | none =>
      have hw : cache_df_wrapper cache_key fname func args t
          = ((func args t).1,
             { (func args t).2 with
                 store := dinsert ((func args t).2).store (cache_key.getD fname) (func args t).1 }) := by
        simp only [cache_df_wrapper]
        rw [hl]
      rw [hw]
      exact hit _ _ (lookup_dinsert_self _ _ _)
  exact ⟨hit s df h, hsecond, by rw [hsecond]⟩

/-- Witness for C5: a store already holding the `medicines_register`
snapshot, and a second call after a first call on an empty store. -/
theorem c5_snapshot_witness :
    cache_df_wrapper none "medicines_register" funcW [1] csW = (7, csW) ∧
    cache_df_wrapper none "medicines_register" funcW [1]
        (cache_df_wrapper none "medicines_register" funcW [1] csE).2
      = ((cache_df_wrapper none "medicines_register" funcW [1] csE).1,
         (cache_df_wrapper none "medicines_register" funcW [1] csE).2) ∧
    (cache_df_wrapper none "medicines_register" funcW [1]
        (cache_df_wrapper none "medicines_register" funcW [1] csE).2).2.fetches
      = (cache_df_wrapper none "medicines_register" funcW [1] csE).2.fetches :=
  c5_snapshot (List Nat) Nat none "medicines_register" funcW [1] csW csE 7 (by decide)

/-- Claim C6: for a procedure entry with decision date `2020-03-15` and id
`C123`, an English decision file and no English annex file,
`parse_procedures` produces the row with `decisions_en` equal to the base
URL followed by `/2020/20200315C123/dec_C123_en.pdf` and with neither
`annexes_en` nor `summary_en`; and an entry with no decision date yields
none of the three URL fields regardless of the listed files. -/
theorem c6_procedure_urls (rec recB : ProcRec)
    (hdate : decisionDate rec = some "2020-03-15")
    (hid : rec.id = "C123")
    (hdec : (rec.files_dec.getD []).any (fun f => f.code == "en") = true)
    (hanx : (rec.files_anx.getD []).any (fun f => f.code == "en") = false)
    (hnd : decisionDate recB = none) :
    parse_procedures [rec, recB] = [procRow rec, procRow recB] ∧
    (procRow rec).decisions_en
      = some (procBaseUrl ++ "/2020/20200315C123/dec_C123_en.pdf") ∧
    (procRow rec).annexes_en = none ∧
    (procRow rec).summary_en = none ∧
    (procRow recB).decisions_en = none ∧
    (procRow recB).annexes_en = none ∧
    (procRow recB).summary_en = none := by
  refine ⟨rfl, ?_, ?_, ?_, ?_, ?_, ?_⟩ <;>
    simp [procRow, hdate, hid, hdec, hanx, hnd, yearOf, dropDashes, pySplitChar, procBaseUrl]

/-- Witness for C6: the concrete entries `recW` (2020-03-15, C123, English
decision file only) and `recND` (no decision date). -/
theorem c6_procedure_urls_witness :
    parse_procedures [recW, recND] = [procRow recW, procRow recND] ∧
    (procRow recW).decisions_en
      = some (procBaseUrl ++ "/2020/20200315C123/dec_C123_en.pdf") ∧
    (procRow recW).annexes_en = none ∧
    (procRow recW).summary_en = none ∧
    (procRow recND).decisions_en = none ∧
    (procRow recND).annexes_en = none ∧
    (procRow recND).summary_en = none :=
  c6_procedure_urls recW recND rfl rfl (by decide) (by decide) rfl

/-- Claim C7: for a product-information item tagged `atc`, the `atc` field
of the dict built by `parse_medicine_page_top` is exactly the level-"5"
codes of the nested metadata, in source order, joined with `;` — codes of
every other level are excluded. -/
theorem c7_atc_level5 (items : List PIItem) (v : String) (m : List (List LevelEntry)) :
    List.lookup "atc" (parse_items (items ++ [{ type := "atc", value := v, meta := MetaVal.atc m }]))
      = some (String.intercalate ";"
          ((m.flatten.filter (fun e => e.level == "5")).map LevelEntry.code)) := by
  unfold parse_items
  rw [List.foldl_append]
  simp only [List.foldl_cons, List.foldl_nil]
  have hstep : piStep (List.foldl piStep [] items)
        { type := "atc", value := v, meta := MetaVal.atc m }
      = dinsert (List.foldl piStep [] items) "atc"
          (String.intercalate ";" (atcCodes m)) := rfl
  rw [hstep, atcCodes_eq]
  exact lookup_dinsert_self _ _ _

/-- Claim C8: with `force` false and a cache entry present for the URL,
`cached_get` returns the cached bytes with status 200 and leaves the state
— in particular the network-call counter — untouched. -/
theorem c8_cache_hit (url : String) (maxRetries : Nat) (net : Nat → AttemptOutcome)
    (ts : Nat) (s : FetchState) (c : String)
    (h : List.lookup url s.cache = some c) :
    cached_get url false maxRetries net ts s
      = (Except.ok { status_code := 200, content := c }, s) ∧
    (cached_get url false maxRetries net ts s).2.netCalls = s.netCalls := by
  have h1 : cached_get url false maxRetries net ts s
      = (Except.ok { status_code := 200, content := c }, s) := by
    unfold cached_get
    rw [h]
  exact ⟨h1, by rw [h1]⟩

/-- Witness for C8: a cache holding a body for `"u"`. -/
theorem c8_cache_hit_witness :
    cached_get "u" false 3 netNon200 0 stCached
      = (Except.ok { status_code := 200, content := "body" }, stCached) ∧
    (cached_get "u" false 3 netNon200 0 stCached).2.netCalls = stCached.netCalls :=
  c8_cache_hit "u" 3 netNon200 0 stCached "body" (by decide)

/-- Claim C9: `procedures()` infers the exploded-table schema from the
procedure rows of the hard-coded product id 1; when that list is empty the
indexing `[0]` raises `IndexError` and no product is processed. -/
theorem c9_schema_probe (parseRows : Int → List ProcRow) (ids : List Int)
    (h : parseRows 1 = []) :
    procedures_run parseRows ids = (Except.error PyRuntimeError.indexError, []) := by
  unfold procedures_run
  rw [h]

/-- Witness for C9: a register of two products whose representative
product 1 has no procedure rows. -/
theorem c9_schema_probe_witness :
    procedures_run (fun _ => []) [1, 2] = (Except.error PyRuntimeError.indexError, []) :=
  c9_schema_probe (fun _ => []) [1, 2] rfl

/-- Claim C10: once the snapshot for the wrapper's key exists, the
`cache_df` wrapper returns the same stored table for any two argument
lists — arguments play no part in the cache key and are ignored on every
cache hit. -/
theorem c10_args_ignored (α δ : Type) (cache_key : Option String) (fname : String)
    (func : α → CState δ → δ × CState δ) (a1 a2 : α) (s : CState δ) (df : δ)
    (h : List.lookup (cache_key.getD fname) s.store = some df) :
    cache_df_wrapper cache_key fname func a1 s = (df, s) ∧
    cache_df_wrapper cache_key fname func a2 s = (df, s) := by
  constructor <;> (simp only [cache_df_wrapper]; rw [h])

/-- Witness for C10: the stored `medicines_register` snapshot is returned
for two different argument lists. -/
theorem c10_args_ignored_witness :
    cache_df_wrapper none "medicines_register" funcW [1, 2] csW = (7, csW) ∧
    cache_df_wrapper none "medicines_register" funcW [] csW = (7, csW) :=
  c10_args_ignored (List Nat) Nat none "medicines_register" funcW [1, 2] [] csW 7 (by decide)
